import Mathlib

/-!
Verification of the scenario-based population-projection and downscaling
pipeline of the climate-migration dashboard.

The definitions below are a shallow embedding of the computational kernels of
`preprocessing/analysis/population_forecasting.py`,
`preprocessing/analysis/indicator_forecasting.py` and
`preprocessing/analysis/socio_economic_index.py`.  Machine floats are modelled
as exact rationals; pandas `astype(int)` (truncation toward zero, as Python's
`int()`) is `ratTrunc`; Python's builtin `round` (round half to even) is
`pyRound`.
-/

namespace ClimateMigration

/-! ## Definitions -/

/-- `astype(int)` / Python `int()` conversion: truncation toward zero. -/
def ratTrunc (q : ℚ) : ℤ := if 0 ≤ q then ⌊q⌋ else ⌈q⌉

/-- Python builtin `round` (also numpy/pandas rounding): round half to even. -/
def pyRound (q : ℚ) : ℤ :=
  if q - ⌊q⌋ < 1/2 then ⌊q⌋
  else if 1/2 < q - ⌊q⌋ then ⌊q⌋ + 1
  else if Even ⌊q⌋ then ⌊q⌋ else ⌊q⌋ + 1

/-! ### Scenario generation (`population_forecasting.py`) -/

/-- Census 2065 population projection for the US (population_forecasting.py). -/
def CENSUS_POP_2065 : ℕ := 366207000

/-- Regional shares of the `Census_2010` column of the Qin Fan et al. table,
in the order Northeast, Midwest, South, West, California. -/
def census_2010_shares : List ℚ := [18.70, 20.77, 39.13, 8.84, 12.56]

/-- Regional shares of the `Scenario_1` column of the Qin Fan et al. table. -/
def scenario_1_shares : List ℚ := [12.48, 14.10, 46.23, 13.72, 13.47]

/-- Regional shares of the `Scenario_3` column of the Qin Fan et al. table. -/
def scenario_3_shares : List ℚ := [15.05, 21.33, 41.53, 8.78, 13.31]

/-- Regional shares of the `Scenario_5` column of the Qin Fan et al. table. -/
def scenario_5_shares : List ℚ := [16.42, 20.35, 38.18, 10.07, 14.98]

/-- One entry of `climate_effect_on_pop_shares`: the relative climate effect
`Scenario_5 / Scenario_3 - 1`, scaled by the intensity multiplier `m`
(0.5, 1.0 or 2.0 in the source). -/
def climate_effect (s3 s5 m : ℚ) : ℚ := m * (s5 / s3 - 1)

/-- One entry of `generate_scenario_5_variations`: the new regional share
`Scenario_3 + Scenario_3 * effect`. -/
def generate_scenario_5_variations (s3 s5 m : ℚ) : ℚ :=
  s3 + s3 * climate_effect s3 s5 m

/-- The spec's additive formulation of the generated share:
`baseline + m * (climate - baseline)`. -/
def spec_scenario_share (s3 s5 m : ℚ) : ℚ := s3 + m * (s5 - s3)

/-- The full generated share column for intensity `m`, region by region. -/
def scenario_5_variant_shares (m : ℚ) : List ℚ :=
  List.zipWith (fun s3 s5 => generate_scenario_5_variations s3 s5 m)
    scenario_3_shares scenario_5_shares

/-- Absolute 2065 regional population of a generated scenario variant:
`share / 100 * CENSUS_POP_2065`, truncated by `astype(int)`. -/
def scenario_variant_population (s3 s5 m : ℚ) (nationalPop : ℕ) : ℤ :=
  ratTrunc (generate_scenario_5_variations s3 s5 m / 100 * nationalPop)

/-! ### County downscaling (`population_forecasting.py`) -/

/-- `calculate_proportion_of_region`: a county's 2010 population divided by the
2010 population of its climate region. -/
def calculate_proportion_of_region (county_pop region_pop : ℕ) : ℚ :=
  (county_pop : ℚ) / region_pop

/-- One entry of `calculate_county_scenario_populations`: regional scenario
population times the county's proportion, converted with `astype(int)`. -/
def county_scenario_population (proportion : ℚ) (regional_pop : ℤ) : ℤ :=
  ratTrunc (proportion * regional_pop)

/-- The county projections of a whole region for one scenario: each county's
2010 population is downscaled against the regional 2010 total `region_pop`
and applied to the scenario's regional population `scenario_pop`. -/
def region_county_projections (county_pops : List ℕ) (region_pop : ℕ)
    (scenario_pop : ℕ) : List ℤ :=
  county_pops.map fun c =>
    county_scenario_population (calculate_proportion_of_region c region_pop)
      (scenario_pop : ℤ)

/-! ### Indicator projection (`indicator_forecasting.py`) -/

/-- `calculate_projected_values` applied to one scalable indicator value:
`round(value * (1 + percentage_change / 100))` with Python's builtin `round`. -/
def calculate_projected_values (v pct : ℚ) : ℤ := pyRound (v * (1 + pct / 100))

/-- `TOTAL_EMPLOYED_PERCENTAGE` as computed by `calculate_derived_metrics`:
the *unscaled 2023* employed count divided by the scenario's (scaled) labor
force, times 100. -/
def total_employed_percentage (employed2023 : ℚ) (laborForceScaled : ℤ) : ℚ :=
  employed2023 / (laborForceScaled : ℚ) * 100

/-- `UNEMPLOYMENT_RATE` as computed by `calculate_derived_metrics`:
`100 - TOTAL_EMPLOYED_PERCENTAGE`. -/
def code_unemployment_rate (employed2023 laborForce2023 pct : ℚ) : ℚ :=
  100 - total_employed_percentage employed2023
    (calculate_projected_values laborForce2023 pct)

/-- The spec's unemployment rate: both the employed count and the labor force
are scaled by the scenario's percentage change before the ratio is taken. -/
def spec_unemployment_rate (employed2023 laborForce2023 pct : ℚ) : ℚ :=
  100 - ((calculate_projected_values employed2023 pct : ℚ) /
    (calculate_projected_values laborForce2023 pct : ℚ) * 100)

/-- The teacher-count denominator used by `calculate_derived_metrics`:
`teachers_2023.values[0] if not teachers_2023.empty else 1`. A county with no
2023 teacher record gets the fallback denominator 1. -/
def teacher_count (teachers2023 : Option ℚ) : ℚ := teachers2023.getD 1

/-- `STUDENT_TEACHER_RATIO` as computed by `calculate_derived_metrics`. -/
def student_teacher_ratio (students : ℚ) (teachers2023 : Option ℚ) : ℚ :=
  students / teacher_count teachers2023

/-- The spec's student-teacher ratio: undefined (`none`) when the teacher
count is zero or missing. -/
def spec_student_teacher_ratio (students : ℚ) (teachers2023 : Option ℚ) :
    Option ℚ :=
  match teachers2023 with
  | none => none
  | some t => if t = 0 then none else some (students / t)

/-- The county filter of `calculate_indices`: a row enters the z-score index
table iff `PUBLIC_SCHOOL_STUDENTS > 0`. -/
def included_in_indices (students : ℚ) : Bool := decide (0 < students)

/-! ### Index computation (`socio_economic_index.py` and
`indicator_forecasting.py`) -/

/-- Minimum of a column of values (only used on nonempty columns). -/
def listMin : List ℚ → ℚ
  | [] => 0
  | [x] => x
  | x :: y :: ys => min x (listMin (y :: ys))

/-- Maximum of a column of values (only used on nonempty columns). -/
def listMax : List ℚ → ℚ
  | [] => 0
  | [x] => x
  | x :: y :: ys => max x (listMax (y :: ys))

/-- sklearn's `MinMaxScaler` applied to one value of a column: scale by the
column range, with a zero range replaced by 1 (`_handle_zeros_in_scale`). -/
def minMaxScale (col : List ℚ) (x : ℚ) : ℚ :=
  (x - listMin col) *
    (if listMax col - listMin col = 0 then 1 else (listMax col - listMin col)⁻¹)

/-- The `invert_columns` list of `socio_economic_index.main` (verbatim,
including the casing of the first entry). -/
def invert_columns : List String :=
  ["Criminal_Activities", "UNEMPLOYMENT_RATE",
   "LESS_THAN_HIGH_SCHOOL_UNEMPLOYED", "HOUSE_AFFORDABILITY"]

/-- `normalize_data` restricted to one named column: min-max scale each value
and invert (`1 - v`) exactly when the column's name appears in
`invert_columns` (string comparison is case-sensitive, as in pandas). -/
def normalize_data (col : String) (xs : List ℚ) : List ℚ :=
  xs.map fun x =>
    let v := minMaxScale xs x
    if invert_columns.contains col then 1 - v else v

/-- A category score of `calculate_index`: the unweighted mean (`mean(axis=1)`)
of the category's normalized member values. -/
def category_score (vals : List ℚ) : ℚ := vals.sum / (vals.length : ℚ)

/-- `calculate_index`: the weighted sum of category scores. Each entry of
`cats` is a category's weight paired with its normalized member values. -/
def calculate_index (cats : List (ℚ × List ℚ)) : ℚ :=
  (cats.map fun c => category_score c.2 * c.1).sum

/-- Weights of the min-max `balanced` profile (`socio_economic_index.py`). -/
def balanced_weights : List ℚ := [0.2, 0.2, 0.2, 0.2, 0.2]

/-- Weights of the min-max `economy_focused` profile. -/
def economy_focused_weights : List ℚ := [0.1, 0.4, 0.2, 0.2, 0.1]

/-- Weights of the min-max `safety_focused` profile. -/
def safety_focused_weights : List ℚ := [0.4, 0.2, 0.1, 0.2, 0.1]

/-- Weights of the min-max `opportunity_focused` profile. -/
def opportunity_focused_weights : List ℚ := [0.1, 0.2, 0.3, 0.1, 0.3]

/-- Weights of `INDEX_BALANCED` (`indicator_forecasting.calculate_indices`). -/
def INDEX_BALANCED_weights : List ℚ := [0.33, 0.33, 0.33]

/-- Weights of `INDEX_EMPLOYMENT`. -/
def INDEX_EMPLOYMENT_weights : List ℚ := [0.6, 0.2, 0.2]

/-- Weights of `INDEX_HOUSING`. -/
def INDEX_HOUSING_weights : List ℚ := [0.2, 0.2, 0.6]

/-- Weights of `INDEX_EDUCATION`. -/
def INDEX_EDUCATION_weights : List ℚ := [0.2, 0.6, 0.2]

end ClimateMigration

namespace ClimateMigration

/-! ## Theorems -/

theorem ratTrunc_of_nonneg {q : ℚ} (h : 0 ≤ q) : ratTrunc q = ⌊q⌋ := by
  simp [ratTrunc, h]

theorem ratTrunc_mono : Monotone ratTrunc := by
  intro a b hab
  unfold ratTrunc
  by_cases ha : 0 ≤ a
  · have hb : 0 ≤ b := le_trans ha hab
    simp only [ha, hb, if_true]
    exact Int.floor_le_floor hab
  · by_cases hb : 0 ≤ b
    · simp only [ha, hb, if_true, if_false]
      have h1 : (⌈a⌉ : ℤ) ≤ 0 := by
        have : a ≤ 0 := le_of_not_le ha
        calc ⌈a⌉ ≤ ⌈(0 : ℚ)⌉ := Int.ceil_le_ceil this
        _ = 0 := by simp
      have h2 : (0 : ℤ) ≤ ⌊b⌋ := by
        simpa using Int.floor_le_floor hb
      omega
    · simp only [ha, hb, if_false]
      exact Int.ceil_le_ceil hab

/-- Code and spec forms of the generated share agree whenever the baseline
share is nonzero. -/
theorem generate_eq_spec_of_ne_zero (s3 s5 m : ℚ) (h : s3 ≠ 0) :
    generate_scenario_5_variations s3 s5 m = spec_scenario_share s3 s5 m := by
  unfold generate_scenario_5_variations spec_scenario_share climate_effect
  field_simp

/-- Summing the generated shares region by region gives
`sum(baseline) + m * (sum(climate) - sum(baseline))`, provided every regional
baseline share is nonzero. -/
theorem sum_generate_variations (m : ℚ) :
    ∀ (regions : List (ℚ × ℚ)), (∀ p ∈ regions, p.1 ≠ 0) →
      (regions.map (fun p => generate_scenario_5_variations p.1 p.2 m)).sum =
        (regions.map Prod.fst).sum +
          m * ((regions.map Prod.snd).sum - (regions.map Prod.fst).sum) := by
  intro regions
  induction regions with
  | nil => intro _; simp
  | cons p rest ih =>
    intro h
    have hp : p.1 ≠ 0 := h p (List.mem_cons_self p rest)
    have hrest : ∀ q ∈ rest, q.1 ≠ 0 := fun q hq => h q (List.mem_cons_of_mem p hq)
    simp only [List.map_cons, List.sum_cons, ih hrest,
      generate_eq_spec_of_ne_zero p.1 p.2 m hp, spec_scenario_share]
    ring

/-- C1: for every region and every intensity multiplier, the generated share
`share_S3 * (1 + m * (share_S5 / share_S3 - 1))` equals the additive form
`share_S3 + m * (share_S5 - share_S3)` whenever the baseline share is nonzero;
at baseline share 20 and climate share 25 the variant shares are 22.5 for
`m = 0.5` and 30 for `m = 2.0`. -/
theorem claim_C1 (s3 s5 m : ℚ) (h : s3 ≠ 0) :
    generate_scenario_5_variations s3 s5 m = spec_scenario_share s3 s5 m ∧
    generate_scenario_5_variations 20 25 0.5 = 22.5 ∧
    generate_scenario_5_variations 20 25 2 = 30 := by
  refine ⟨generate_eq_spec_of_ne_zero s3 s5 m h, ?_, ?_⟩ <;>
    norm_num [generate_scenario_5_variations, climate_effect]

/-- Witness for C1 at the spec's concrete example region. -/
theorem claim_C1_witness :
    generate_scenario_5_variations 20 25 0.5 = spec_scenario_share 20 25 0.5 :=
  (claim_C1 20 25 0.5 (by norm_num)).1

/-- C2: every ground-truth share column of the Qin Fan table and every
generated intensity variant sums to 100 across the five regions (well within
the 0.01 tolerance); and in general, whenever the Scenario_3 and Scenario_5
columns each sum to 100 (with nonzero baseline entries), every generated
variant also sums to exactly 100. -/
theorem claim_C2 :
    (|census_2010_shares.sum - 100| ≤ 0.01 ∧
     |scenario_1_shares.sum - 100| ≤ 0.01 ∧
     |scenario_3_shares.sum - 100| ≤ 0.01 ∧
     |scenario_5_shares.sum - 100| ≤ 0.01) ∧
    (∀ m ∈ ([0.5, 1, 2] : List ℚ),
      |(scenario_5_variant_shares m).sum - 100| ≤ 0.01) ∧
    (∀ (regions : List (ℚ × ℚ)) (m : ℚ), (∀ p ∈ regions, p.1 ≠ 0) →
      (regions.map Prod.fst).sum = 100 → (regions.map Prod.snd).sum = 100 →
      (regions.map (fun p => generate_scenario_5_variations p.1 p.2 m)).sum
        = 100) := by
  refine ⟨⟨?_, ?_, ?_, ?_⟩, ?_, ?_⟩
  · norm_num [census_2010_shares]
  · norm_num [scenario_1_shares]
  · norm_num [scenario_3_shares]
  · norm_num [scenario_5_shares]
  · intro m _hm
    simp only [scenario_5_variant_shares, scenario_3_shares, scenario_5_shares,
      generate_scenario_5_variations, climate_effect, List.zipWith, List.sum_cons,
      List.sum_nil]
    ring_nf
    norm_num
  · intro regions m h1 h2 h3
    rw [sum_generate_variations m regions h1, h2, h3]
    ring

/-- Witness for C2's general conservation statement at the concrete
Scenario_3 / Scenario_5 table with intensity multiplier 2. -/
theorem claim_C2_witness :
    (([(15.05, 16.42), (21.33, 20.35), (41.53, 38.18), (8.78, 10.07),
        (13.31, 14.98)] : List (ℚ × ℚ)).map
      (fun p => generate_scenario_5_variations p.1 p.2 2)).sum = 100 :=
  claim_C2.2.2 _ 2 (by intro p hp; fin_cases hp <;> norm_num)
    (by norm_num) (by norm_num)

/-- The downscaled county projection is exactly the natural-number division
`county_pop * scenario_pop / region_pop`. -/
theorem county_scenario_population_eq_div (c R P : ℕ) :
    county_scenario_population (calculate_proportion_of_region c R) (P : ℤ) =
      ((c * P / R : ℕ) : ℤ) := by
  unfold county_scenario_population calculate_proportion_of_region
  have hq : ((c : ℚ) / (R : ℕ)) * ((P : ℤ) : ℚ) = ((c * P : ℕ) : ℚ) / ((R : ℕ) : ℚ) := by
    push_cast
    ring
  rw [hq, ratTrunc_of_nonneg (by positivity),
    ← Int.natCast_floor_eq_floor (by positivity), Nat.floor_div_eq_div]

/-- Upper bound: the truncated county projections of a region never overshoot
the regional target (after clearing the divisions by `R`). -/
theorem sum_div_mul_le (l : List ℕ) (P R : ℕ) :
    (l.map (fun c => c * P / R)).sum * R ≤ l.sum * P := by
  induction l with
  | nil => simp
  | cons c rest ih =>
    simp only [List.map_cons, List.sum_cons, Nat.add_mul]
    exact Nat.add_le_add (Nat.div_mul_le_self _ _) ih

/-- Lower bound: each truncation loses less than one unit of the regional
target per county (after clearing the divisions by `R`). -/
theorem le_sum_div_mul (l : List ℕ) (P R : ℕ) (hR : 0 < R) :
    l.sum * P ≤ ((l.map (fun c => c * P / R)).sum + l.length) * R := by
  induction l with
  | nil => simp
  | cons c rest ih =>
    simp only [List.map_cons, List.sum_cons, List.length_cons]
    have h1 : c * P ≤ (c * P / R + 1) * R := by
      have h0 := Nat.lt_mul_div_succ (c * P) hR
      calc c * P ≤ R * (c * P / R + 1) := le_of_lt h0
      _ = (c * P / R + 1) * R := Nat.mul_comm _ _
    have key : (c + rest.sum) * P = c * P + rest.sum * P := Nat.add_mul _ _ _
    have expand : (c * P / R + (rest.map (fun c => c * P / R)).sum +
        (rest.length + 1)) * R =
        (c * P / R + 1) * R + ((rest.map (fun c => c * P / R)).sum + rest.length) * R := by
      ring
    rw [key, expand]
    exact Nat.add_le_add h1 ih

/-- C3: for every scenario, the truncated county projections of a region sum
to within the number of counties of the scenario's regional population, given
that the regional baseline population is the (positive) sum of its counties'
baseline populations. -/
theorem claim_C3 (county_pops : List ℕ) (scenario_pop : ℕ)
    (hR : 0 < county_pops.sum) :
    (scenario_pop : ℤ) - county_pops.length ≤
      (region_county_projections county_pops county_pops.sum scenario_pop).sum ∧
    (region_county_projections county_pops county_pops.sum scenario_pop).sum ≤
      scenario_pop := by
  set R := county_pops.sum with hRdef
  have hmap : region_county_projections county_pops R scenario_pop =
      (county_pops.map (fun c => c * scenario_pop / R)).map ((↑) : ℕ → ℤ) := by
    unfold region_county_projections
    rw [List.map_map]
    exact List.map_congr_left fun c _ =>
      county_scenario_population_eq_div c R scenario_pop
  have hsum : (region_county_projections county_pops R scenario_pop).sum =
      (((county_pops.map (fun c => c * scenario_pop / R)).sum : ℕ) : ℤ) := by
    rw [hmap, ← Nat.cast_list_sum]
  have hup : (county_pops.map (fun c => c * scenario_pop / R)).sum ≤ scenario_pop := by
    have h := sum_div_mul_le county_pops scenario_pop R
    rw [← hRdef] at h
    have h2 : (county_pops.map (fun c => c * scenario_pop / R)).sum * R ≤
        scenario_pop * R := by
      calc (county_pops.map (fun c => c * scenario_pop / R)).sum * R ≤
          R * scenario_pop := h
      _ = scenario_pop * R := Nat.mul_comm _ _
    exact Nat.le_of_mul_le_mul_right h2 hR
  have hlo : scenario_pop ≤
      (county_pops.map (fun c => c * scenario_pop / R)).sum + county_pops.length := by
    have h := le_sum_div_mul county_pops scenario_pop R hR
    rw [← hRdef] at h
    have h2 : scenario_pop * R ≤
        ((county_pops.map (fun c => c * scenario_pop / R)).sum +
          county_pops.length) * R := by
      calc scenario_pop * R = R * scenario_pop := Nat.mul_comm _ _
      _ ≤ _ := h
    exact Nat.le_of_mul_le_mul_right h2 hR
  constructor
  · rw [hsum]
    omega
  · rw [hsum]
    exact_mod_cast hup

/-- Witness for C3: a region of two counties (populations 1 and 2) with a
scenario target of 709. -/
theorem claim_C3_witness :
    ((7 : ℤ) - ([1, 2] : List ℕ).length ≤
      (region_county_projections [1, 2] ([1, 2] : List ℕ).sum 7).sum ∧
    (region_county_projections [1, 2] ([1, 2] : List ℕ).sum 7).sum ≤ 7) :=
  claim_C3 [1, 2] 7 (by norm_num)

/-- Increasing the intensity multiplier in the direction of the climate
deviation can only increase the truncated regional scenario population. -/
theorem scenario_variant_population_le (s3 s5 m1 m2 : ℚ) (N : ℕ) (h3 : s3 ≠ 0)
    (h : m1 * (s5 - s3) ≤ m2 * (s5 - s3)) :
    scenario_variant_population s3 s5 m1 N ≤
      scenario_variant_population s3 s5 m2 N := by
  unfold scenario_variant_population
  apply ratTrunc_mono
  rw [generate_eq_spec_of_ne_zero _ _ _ h3, generate_eq_spec_of_ne_zero _ _ _ h3]
  unfold spec_scenario_share
  gcongr

/-- A county's truncated projection is monotone in its region's scenario
population, for a nonnegative county proportion. -/
theorem county_scenario_population_mono (p : ℚ) (hp : 0 ≤ p) {P1 P2 : ℤ}
    (h : P1 ≤ P2) :
    county_scenario_population p P1 ≤ county_scenario_population p P2 := by
  unfold county_scenario_population
  apply ratTrunc_mono
  have hq : (P1 : ℚ) ≤ P2 := by exact_mod_cast h
  exact mul_le_mul_of_nonneg_left hq hp

/-- C4: for a county (nonnegative regional proportion) of a region with a
positive climate deviation, the projected county populations are ordered
`S5a (0.5×) ≤ S5b (1.0×) ≤ S5c (2.0×)`; for a negative deviation the order is
reversed. -/
theorem claim_C4 (s3 s5 p : ℚ) (N : ℕ) (hp : 0 ≤ p) (h3 : 0 < s3) :
    (s3 < s5 →
      county_scenario_population p (scenario_variant_population s3 s5 0.5 N) ≤
        county_scenario_population p (scenario_variant_population s3 s5 1 N) ∧
      county_scenario_population p (scenario_variant_population s3 s5 1 N) ≤
        county_scenario_population p (scenario_variant_population s3 s5 2 N)) ∧
    (s5 < s3 →
      county_scenario_population p (scenario_variant_population s3 s5 2 N) ≤
        county_scenario_population p (scenario_variant_population s3 s5 1 N) ∧
      county_scenario_population p (scenario_variant_population s3 s5 1 N) ≤
        county_scenario_population p (scenario_variant_population s3 s5 0.5 N)) := by
  have h3ne : s3 ≠ 0 := ne_of_gt h3
  constructor
  · intro hpos
    constructor
    · exact county_scenario_population_mono p hp
        (scenario_variant_population_le s3 s5 0.5 1 N h3ne (by nlinarith))
    · exact county_scenario_population_mono p hp
        (scenario_variant_population_le s3 s5 1 2 N h3ne (by nlinarith))
  · intro hneg
    constructor
    · exact county_scenario_population_mono p hp
        (scenario_variant_population_le s3 s5 2 1 N h3ne (by nlinarith))
    · exact county_scenario_population_mono p hp
        (scenario_variant_population_le s3 s5 1 0.5 N h3ne (by nlinarith))

/-- Witness for C4 at the spec's example region (baseline share 20, climate
share 25) with a county holding half of its region. -/
theorem claim_C4_witness :
    county_scenario_population (1/2) (scenario_variant_population 20 25 0.5 1000) ≤
      county_scenario_population (1/2) (scenario_variant_population 20 25 1 1000) :=
  ((claim_C4 20 25 (1/2) 1000 (by norm_num) (by norm_num)).1 (by norm_num)).1

/-- C5 counterexample: a county holding half of a region whose scenario
population is 3 is projected at `astype(int)(1.5) = 1` by the code, while
round-to-nearest gives 2. -/
theorem claim_C5_counterexample :
    county_scenario_population (1/2) 3 = 1 ∧
    round ((1/2 : ℚ) * ((3 : ℤ) : ℚ)) = 2 ∧
    county_scenario_population (1/2) 3 ≠ round ((1/2 : ℚ) * ((3 : ℤ) : ℚ)) := by
  refine ⟨?_, ?_, ?_⟩ <;>
    norm_num [county_scenario_population, ratTrunc, round_eq]

/-- C5 (amended): the county projection is the floor (truncation of a
nonnegative product), not round-to-nearest, of the county share times the
scenario's regional population. -/
theorem claim_C5 (p : ℚ) (P : ℤ) (hp : 0 ≤ p) (hP : 0 ≤ P) :
    county_scenario_population p P = ⌊p * (P : ℚ)⌋ := by
  unfold county_scenario_population
  exact ratTrunc_of_nonneg (mul_nonneg hp (by exact_mod_cast hP))

/-- Witness for C5 (amended) at share one half and regional population 3. -/
theorem claim_C5_witness :
    county_scenario_population (1/2) 3 = ⌊(1/2 : ℚ) * ((3 : ℤ) : ℚ)⌋ :=
  claim_C5 (1/2) 3 (by norm_num) (by norm_num)

/-- C6: at the spec's example (employed 480, labor force 500, +10% change)
the code's unemployment rate is `100 - 480/550*100 = 140/11 ≈ 12.73`, not the
4.0 required by the claim, because `calculate_derived_metrics` divides the
unscaled 2023 employed count by the scaled labor force. -/
theorem claim_C6 :
    code_unemployment_rate 480 500 10 = 140/11 ∧
    spec_unemployment_rate 480 500 10 = 4 ∧
    code_unemployment_rate 480 500 10 ≠ spec_unemployment_rate 480 500 10 := by
  have h550 : calculate_projected_values 500 10 = 550 := by
    norm_num [calculate_projected_values, pyRound]
  have h528 : calculate_projected_values 480 10 = 528 := by
    norm_num [calculate_projected_values, pyRound]
  refine ⟨?_, ?_, ?_⟩ <;>
    norm_num [code_unemployment_rate, spec_unemployment_rate,
      total_employed_percentage, h550, h528]

/-- C7 counterexample: a county with 100 students and no 2023 teacher record
gets the fallback denominator 1, so the code computes the ratio as the number
100 (the spec's treatment would leave it undefined), and the county passes the
index filter since its student count is positive. -/
theorem claim_C7_counterexample :
    student_teacher_ratio 100 none = 100 ∧
    spec_student_teacher_ratio 100 none = none ∧
    included_in_indices 100 = true := by
  refine ⟨?_, rfl, by norm_num [included_in_indices]⟩
  norm_num [student_teacher_ratio, teacher_count]

/-- C7 (amended): when the teacher count is missing the code substitutes a
denominator of 1 — the ratio equals the student count and processing
continues — and a county is excluded from the z-score indices exactly when its
student count is not positive, regardless of its teacher data. -/
theorem claim_C7 (students : ℚ) :
    student_teacher_ratio students none = students ∧
    (included_in_indices students = true ↔ 0 < students) := by
  constructor
  · simp [student_teacher_ratio, teacher_count]
  · simp [included_in_indices]

/-- C8: the crime count is NOT inverted — the `invert_columns` entry
`Criminal_Activities` never matches the actual column name
`CRIMINAL_ACTIVITIES` — while `UNEMPLOYMENT_RATE` is inverted as intended.
On the column values `[0, 10]` the code outputs `[0, 1]` for the crime count
(higher normalized value still means more crime) instead of `[1, 0]`. -/
theorem claim_C8 :
    normalize_data "CRIMINAL_ACTIVITIES" [0, 10] = [0, 1] ∧
    normalize_data "UNEMPLOYMENT_RATE" [0, 10] = [1, 0] ∧
    invert_columns.contains "CRIMINAL_ACTIVITIES" = false := by
  refine ⟨?_, ?_, by decide⟩
  · norm_num [normalize_data, minMaxScale, listMin, listMax, invert_columns]
    decide
  · norm_num [normalize_data, minMaxScale, listMin, listMax, invert_columns]

/-- C9 counterexample: the `INDEX_BALANCED` weights `0.33 + 0.33 + 0.33` sum
to 0.99, which is not within `1e-9` of 1. -/
theorem claim_C9_counterexample :
    INDEX_BALANCED_weights.sum = 0.99 ∧
    ¬(|INDEX_BALANCED_weights.sum - 1| ≤ 1/1000000000) := by
  refine ⟨by norm_num [INDEX_BALANCED_weights], ?_⟩
  have hsum : INDEX_BALANCED_weights.sum - 1 = -(1/100) := by
    norm_num [INDEX_BALANCED_weights]
  rw [hsum, abs_neg, abs_of_pos (by norm_num)]
  norm_num

/-- C9 (amended): all four min-max profiles and the z-score indices
`INDEX_EMPLOYMENT`, `INDEX_HOUSING` and `INDEX_EDUCATION` have weights summing
to exactly 1; the `INDEX_BALANCED` weights sum to 0.99. -/
theorem claim_C9 :
    balanced_weights.sum = 1 ∧ economy_focused_weights.sum = 1 ∧
    safety_focused_weights.sum = 1 ∧ opportunity_focused_weights.sum = 1 ∧
    INDEX_EMPLOYMENT_weights.sum = 1 ∧ INDEX_HOUSING_weights.sum = 1 ∧
    INDEX_EDUCATION_weights.sum = 1 ∧ INDEX_BALANCED_weights.sum = 0.99 := by
  norm_num [balanced_weights, economy_focused_weights, safety_focused_weights,
    opportunity_focused_weights, INDEX_EMPLOYMENT_weights, INDEX_HOUSING_weights,
    INDEX_EDUCATION_weights, INDEX_BALANCED_weights]

/-- The column minimum bounds every member from below. -/
theorem listMin_le {l : List ℚ} {x : ℚ} (hx : x ∈ l) : listMin l ≤ x := by
  induction l with
  | nil => cases hx
  | cons a t ih =>
    cases t with
    | nil =>
      rcases List.mem_cons.mp hx with h | h
      · subst h; simp [listMin]
      · cases h
    | cons b t2 =>
      rcases List.mem_cons.mp hx with h | h
      · subst h
        simp only [listMin]
        exact min_le_left _ _
      · have h1 : listMin (a :: b :: t2) ≤ listMin (b :: t2) := by
          simp only [listMin]
          exact min_le_right _ _
        exact le_trans h1 (ih h)

/-- The column maximum bounds every member from above. -/
theorem le_listMax {l : List ℚ} {x : ℚ} (hx : x ∈ l) : x ≤ listMax l := by
  induction l with
  | nil => cases hx
  | cons a t ih =>
    cases t with
    | nil =>
      rcases List.mem_cons.mp hx with h | h
      · subst h; simp [listMax]
      · cases h
    | cons b t2 =>
      rcases List.mem_cons.mp hx with h | h
      · subst h
        simp only [listMax]
        exact le_max_left _ _
      · have h1 : listMax (b :: t2) ≤ listMax (a :: b :: t2) := by
          simp only [listMax]
          exact le_max_right _ _
        exact le_trans (ih h) h1

/-- Min-max scaling sends every member of a column into `[0, 1]` (a constant
column is sent to 0, matching sklearn's zero-range handling). -/
theorem minMaxScale_mem_bounds {l : List ℚ} {x : ℚ} (hx : x ∈ l) :
    0 ≤ minMaxScale l x ∧ minMaxScale l x ≤ 1 := by
  have hm := listMin_le hx
  have hM := le_listMax hx
  unfold minMaxScale
  by_cases h : listMax l - listMin l = 0
  · have hxm : x = listMin l := le_antisymm (by linarith) hm
    rw [if_pos h, hxm]
    norm_num
  · have hlt : 0 < listMax l - listMin l :=
      lt_of_le_of_ne (by linarith) (fun e => h e.symm)
    rw [if_neg h, ← div_eq_mul_inv]
    constructor
    · exact div_nonneg (by linarith) (le_of_lt hlt)
    · rw [div_le_one hlt]
      linarith

/-- A category score over member values in `[0, 1]` stays in `[0, 1]`. -/
theorem category_score_bounds {vals : List ℚ} (hne : vals ≠ [])
    (h : ∀ v ∈ vals, 0 ≤ v ∧ v ≤ 1) :
    0 ≤ category_score vals ∧ category_score vals ≤ 1 := by
  have hlen : 0 < (vals.length : ℚ) := by
    have hp : 0 < vals.length := List.length_pos.mpr hne
    exact_mod_cast hp
  have hsum0 : 0 ≤ vals.sum := List.sum_nonneg fun v hv => (h v hv).1
  have hsum1 : vals.sum ≤ (vals.length : ℚ) := by
    have hb := List.sum_le_card_nsmul vals 1 fun v hv => (h v hv).2
    simpa using hb
  unfold category_score
  constructor
  · positivity
  · rw [div_le_one hlen]
    exact hsum1

/-- The weighted sum of category scores is nonnegative and bounded by the sum
of the (nonnegative) weights when every member value lies in `[0, 1]`. -/
theorem calculate_index_bounds :
    ∀ (cats : List (ℚ × List ℚ)),
      (∀ c ∈ cats, 0 ≤ c.1 ∧ c.2 ≠ [] ∧ ∀ v ∈ c.2, 0 ≤ v ∧ v ≤ 1) →
      0 ≤ calculate_index cats ∧
        calculate_index cats ≤ (cats.map Prod.fst).sum := by
  intro cats
  induction cats with
  | nil => intro _; simp [calculate_index]
  | cons c rest ih =>
    intro h
    obtain ⟨hw, hne, hvals⟩ := h c (List.mem_cons_self c rest)
    have hrest := ih fun d hd => h d (List.mem_cons_of_mem c hd)
    have hscore := category_score_bounds hne hvals
    simp only [calculate_index, List.map_cons, List.sum_cons] at hrest ⊢
    constructor
    · have h0 : 0 ≤ category_score c.2 * c.1 := mul_nonneg hscore.1 hw
      linarith [hrest.1]
    · have h1 : category_score c.2 * c.1 ≤ c.1 := by
        nlinarith [hscore.2, hw]
      linarith [hrest.2]

/-- C10: every min-max-normalized value of a nonempty column lies in `[0, 1]`
(inverted or not), every category score over such values lies in `[0, 1]`, and
every composite index under nonnegative weights summing to 1 lies in
`[0, 1]`. -/
theorem claim_C10 :
    (∀ (l : List ℚ) (x : ℚ), x ∈ l →
      0 ≤ minMaxScale l x ∧ minMaxScale l x ≤ 1) ∧
    (∀ (col : String) (xs : List ℚ) (v : ℚ), v ∈ normalize_data col xs →
      0 ≤ v ∧ v ≤ 1) ∧
    (∀ (vals : List ℚ), vals ≠ [] → (∀ v ∈ vals, 0 ≤ v ∧ v ≤ 1) →
      0 ≤ category_score vals ∧ category_score vals ≤ 1) ∧
    (∀ (cats : List (ℚ × List ℚ)),
      (∀ c ∈ cats, 0 ≤ c.1 ∧ c.2 ≠ [] ∧ ∀ v ∈ c.2, 0 ≤ v ∧ v ≤ 1) →
      (cats.map Prod.fst).sum = 1 →
      0 ≤ calculate_index cats ∧ calculate_index cats ≤ 1) := by
  refine ⟨fun l x hx => minMaxScale_mem_bounds hx, ?_, ?_, ?_⟩
  · intro col xs v hv
    rcases List.mem_map.mp hv with ⟨y, hy, rfl⟩
    have hb := minMaxScale_mem_bounds hy
    by_cases hc : invert_columns.contains col
    · simp only [hc, if_true]
      constructor <;> linarith [hb.1, hb.2]
    · simp only [hc, if_false]
      exact hb
  · exact fun vals hne h => category_score_bounds hne h
  · intro cats h hw
    have hb := calculate_index_bounds cats h
    rw [hw] at hb
    exact hb

/-- Witness for C10 on a two-value column, a singleton category and a
single-category profile of weight 1. -/
theorem claim_C10_witness :
    (0 ≤ minMaxScale [0, 2] 2 ∧ minMaxScale [0, 2] 2 ≤ 1) ∧
    (0 ≤ category_score [1] ∧ category_score [1] ≤ 1) ∧
    (0 ≤ calculate_index [(1, [1])] ∧ calculate_index [(1, [1])] ≤ 1) := by
  refine ⟨claim_C10.1 [0, 2] 2 (by norm_num), ?_, ?_⟩
  · refine claim_C10.2.2.1 [1] (by norm_num) ?_
    intro v hv
    rcases List.mem_singleton.mp hv with rfl
    norm_num
  · refine claim_C10.2.2.2 [(1, [1])] ?_ (by norm_num)
    intro c hc
    rcases List.mem_singleton.mp hc with rfl
    refine ⟨by norm_num, by norm_num, ?_⟩
    intro v hv
    rcases List.mem_singleton.mp hv with rfl
    norm_num

end ClimateMigration
